import Mathlib

/-!
Verification development for function-claude-status-transformer.

The repository is a Crossplane composition function (Go).  Its core is
`RunFunction` in `main.go`: a pre-loop pipeline (read the function input,
marshal the observed composite, convert the observed composed resources to
JSON with `ProtoMapToJSON`, reconstruct the prior status with
`lastStatusFromObserved`, build an Anthropic client) followed by a
multi-turn tool-calling conversation loop with the model service.

Modelling conventions (a shallow embedding):
* A JSON text (a Go `string` holding JSON) is modelled by the outcome of
  parsing it: `JsonText := Except String Jval`.  `Except.error e` stands
  for a text that `encoding/json` rejects with error text `e`; in
  particular the empty string is `Except.error "unexpected end of JSON
  input"`, which is exactly what `json.Unmarshal([]byte(""), …)` returns.
* External boundaries (the gRPC request decode, `protojson.Marshal` of the
  observed composite, client construction, and each `client.Messages.New`
  round trip) are modelled by their outcomes (`Except`-valued inputs); the
  model reply sequence is a stub function of the turn index and the message
  history, exactly the data the real API call receives.
* The Go `for {}` conversation loop is modelled with explicit fuel:
  `runLoop … fuel … = none` means the loop has not produced a response
  within `fuel` iterations.
* Go machine details that no claim touches (HTTP, TLS, logging, caching
  hints) are omitted.
-/

/-- Jval is a JSON value, the common target of Go's `encoding/json` and
`protojson` marshalers as used by this function (numbers that occur here are
integral, so `Int` suffices). -/
inductive Jval where
  | null
  | bool (b : Bool)
  | num (n : Int)
  | str (s : String)
  | arr (xs : List Jval)
  | obj (fs : List (String × Jval))

/-- JsonText models a Go string holding JSON by the outcome of parsing it:
`.ok v` for a text whose parse is `v`, `.error e` for a text that
`encoding/json` rejects with error text `e`. -/
abbrev JsonText := Except String Jval

/-- hexDigitChar gives the lower-case hex digit Go's JSON encoder emits in
`\u00XX` escapes. -/
def hexDigitChar (n : Nat) : Char :=
  if n < 10 then Char.ofNat (48 + n) else Char.ofNat (87 + n)

/-- goEscapeChar is the escaping Go's `encoding/json` encoder applies to one
character of a string: quote, backslash, newline, carriage return and tab get
two-character escapes, other control characters become `\u00XX`, and the
HTML-sensitive characters `<`, `>`, `&` and the separators U+2028/U+2029 are
escaped as `\uXXXX` (HTML escaping is on by default). -/
def goEscapeChar (c : Char) : String :=
  if c = '"' then "\\\""
  else if c = '\\' then "\\\\"
  else if c = '\n' then "\\n"
  else if c = '\r' then "\\r"
  else if c = '\t' then "\\t"
  else if c.toNat < 32 then
    "\\u00" ++ String.singleton (hexDigitChar (c.toNat / 16)) ++ String.singleton (hexDigitChar (c.toNat % 16))
  else if c = '<' then "\\u003c"
  else if c = '>' then "\\u003e"
  else if c = '&' then "\\u0026"
  else if c.toNat = 8232 then "\\u2028"
  else if c.toNat = 8233 then "\\u2029"
  else String.singleton c

/-- goQuote renders a string as a Go `encoding/json` string literal. -/
def goQuote (s : String) : String :=
  "\"" ++ String.join (s.data.map goEscapeChar) ++ "\""

/-- charListLe is byte-order comparison of two strings' characters (UTF-8
byte order coincides with code-point order), the order `sort.Strings` and
Go's map-key sorting use. -/
def charListLe : List Char → List Char → Bool
  | [], _ => true
  | _ :: _, [] => false
  | a :: as, b :: bs =>
    if a.toNat < b.toNat then true
    else if b.toNat < a.toNat then false
    else charListLe as bs

/-- keyLe orders JSON object fields by key, the order Go's JSON encoder
emits map entries in. -/
def keyLe (a b : String × Jval) : Prop := charListLe a.1.data b.1.data = true

instance : DecidableRel keyLe := fun a b =>
  inferInstanceAs (Decidable (charListLe a.1.data b.1.data = true))

mutual
/-- sortJ recursively sorts every object's fields by key: Go's JSON encoder
writes map entries in sorted key order, and the values `ProtoMapToJSON`
serializes are maps produced by `json.Unmarshal` into `interface{}`. -/
def sortJ : Jval → Jval
  | .null => .null
  | .bool b => .bool b
  | .num n => .num n
  | .str s => .str s
  | .arr xs => .arr (sortJList xs)
  | .obj fs => .obj (List.insertionSort keyLe (sortJFields fs))
def sortJList : List Jval → List Jval
  | [] => []
  | x :: xs => sortJ x :: sortJList xs
def sortJFields : List (String × Jval) → List (String × Jval)
  | [] => []
  | (k, v) :: fs => (k, sortJ v) :: sortJFields fs
end

mutual
/-- jsonSerialize is Go `json.Marshal`'s compact output for a JSON value
(object fields are emitted in the order given, as for a Go struct). -/
def jsonSerialize : Jval → String
  | .null => "null"
  | .bool b => if b then "true" else "false"
  | .num n => toString n
  | .str s => goQuote s
  | .arr [] => "[]"
  | .arr (x :: xs) => "[" ++ jsonSerialize x ++ jsonSerializeTail xs ++ "]"
  | .obj [] => String.singleton '{' ++ String.singleton '}'
  | .obj ((k, v) :: fs) =>
    String.singleton '{' ++ goQuote k ++ ":" ++ jsonSerialize v ++
      jsonSerializeFieldsTail fs ++ String.singleton '}'
def jsonSerializeTail : List Jval → String
  | [] => ""
  | x :: xs => "," ++ jsonSerialize x ++ jsonSerializeTail xs
def jsonSerializeFieldsTail : List (String × Jval) → String
  | [] => ""
  | (k, v) :: fs => "," ++ goQuote k ++ ":" ++ jsonSerialize v ++ jsonSerializeFieldsTail fs
end

/-- jsonIndent is the leading whitespace `json.MarshalIndent(v, "", "  ")`
puts before an element nested `n` levels deep. -/
def jsonIndent (n : Nat) : String := String.join (List.replicate n "  ")

mutual
/-- jsonSerializeIndent is Go `json.MarshalIndent(v, "", "  ")`'s output for
a JSON value at nesting depth `d`. -/
def jsonSerializeIndent (d : Nat) : Jval → String
  | .null => "null"
  | .bool b => if b then "true" else "false"
  | .num n => toString n
  | .str s => goQuote s
  | .arr [] => "[]"
  | .arr (x :: xs) =>
    "[\n" ++ jsonIndent (d + 1) ++ jsonSerializeIndent (d + 1) x ++
      jsonSerializeIndentTail (d + 1) xs ++ "\n" ++ jsonIndent d ++ "]"
  | .obj [] => String.singleton '{' ++ String.singleton '}'
  | .obj ((k, v) :: fs) =>
    String.singleton '{' ++ "\n" ++ jsonIndent (d + 1) ++ goQuote k ++ ": " ++
      jsonSerializeIndent (d + 1) v ++ jsonSerializeIndentFieldsTail (d + 1) fs ++
      "\n" ++ jsonIndent d ++ String.singleton '}'
def jsonSerializeIndentTail (d : Nat) : List Jval → String
  | [] => ""
  | x :: xs => ",\n" ++ jsonIndent d ++ jsonSerializeIndent d x ++ jsonSerializeIndentTail d xs
def jsonSerializeIndentFieldsTail (d : Nat) : List (String × Jval) → String
  | [] => ""
  | (k, v) :: fs =>
    ",\n" ++ jsonIndent d ++ goQuote k ++ ": " ++ jsonSerializeIndent d v ++
      jsonSerializeIndentFieldsTail d fs
end

/-- composedResourceStatus is the status of a composed resource as reported
by Claude (`main.go`): name, optional namespace, kind, apiVersion, readiness
and a human-readable message.  The Go field `Namespace` carries the JSON tag
`namespace,omitempty`. -/
structure composedResourceStatus where
  name : String
  namespace' : String
  kind : String
  apiVersion : String
  ready : Bool
  message : String
deriving DecidableEq

/-- CompositionStatus is the status of the composition as reported by
Claude: per-resource statuses, the overall status string, and a summary. -/
structure CompositionStatus where
  ResourceStatuses : List composedResourceStatus
  OverallStatus : String
  Summary : String
deriving DecidableEq

/-- marshalComposedResourceStatus is `json.Marshal` on one
`composedResourceStatus`: struct fields in declared order, with `namespace`
omitted when empty (its tag says `omitempty`). -/
def marshalComposedResourceStatus (r : composedResourceStatus) : Jval :=
  .obj ([("name", .str r.name)]
    ++ (if r.namespace' = "" then [] else [("namespace", .str r.namespace')])
    ++ [("kind", .str r.kind), ("apiVersion", .str r.apiVersion),
        ("ready", .bool r.ready), ("message", .str r.message)])

/-- marshalResourceStatuses is `json.Marshal` on a
`[]composedResourceStatus` (a JSON array of the elementwise encodings). -/
def marshalResourceStatuses (l : List composedResourceStatus) : Jval :=
  .arr (l.map marshalComposedResourceStatus)

/-- marshalCompositionStatus is `json.Marshal` on a `CompositionStatus`:
struct fields in declared order with their JSON tags. -/
def marshalCompositionStatus (s : CompositionStatus) : Jval :=
  .obj [("resourceStatuses", marshalResourceStatuses s.ResourceStatuses),
        ("overallStatus", .str s.OverallStatus),
        ("summary", .str s.Summary)]

/-- asciiLower lower-cases an ASCII letter, the relevant case of the folding
Go's `encoding/json` uses to match JSON keys to struct fields. -/
def asciiLower (c : Char) : Char :=
  if 65 ≤ c.toNat ∧ c.toNat ≤ 90 then Char.ofNat (c.toNat + 32) else c

/-- goFieldMatch is `encoding/json`'s key-to-field matching: an exact match
on the field's JSON tag, or a case-insensitive one. -/
def goFieldMatch (key fname : String) : Bool :=
  key == fname || key.data.map asciiLower == fname.data.map asciiLower

/-- zeroStatus is the Go zero value of `composedResourceStatus`, the struct
`json.Unmarshal` starts from. -/
def zeroStatus : composedResourceStatus :=
  { name := "", namespace' := "", kind := "", apiVersion := "", ready := false, message := "" }

/-- jsonIntoString is `json.Unmarshal` of one value into a string field: a
JSON string sets it, JSON null leaves it unchanged, anything else is a type
error. -/
def jsonIntoString (v : Jval) (old : String) : Option String :=
  match v with
  | .str s => some s
  | .null => some old
  | _ => none

/-- jsonIntoBool is `json.Unmarshal` of one value into a bool field. -/
def jsonIntoBool (v : Jval) (old : Bool) : Option Bool :=
  match v with
  | .bool b => some b
  | .null => some old
  | _ => none

/-- setStatusField applies one JSON object entry to a
`composedResourceStatus` the way `json.Unmarshal` does: keys are matched to
the struct's JSON tags (exactly or case-insensitively), unknown keys are
ignored, and a value of the wrong type is an error. -/
def setStatusField (r : composedResourceStatus) (key : String) (v : Jval) :
    Option composedResourceStatus :=
  if goFieldMatch key "name" then (jsonIntoString v r.name).map (fun s => { r with name := s })
  else if goFieldMatch key "namespace" then
    (jsonIntoString v r.namespace').map (fun s => { r with namespace' := s })
  else if goFieldMatch key "kind" then (jsonIntoString v r.kind).map (fun s => { r with kind := s })
  else if goFieldMatch key "apiVersion" then
    (jsonIntoString v r.apiVersion).map (fun s => { r with apiVersion := s })
  else if goFieldMatch key "ready" then (jsonIntoBool v r.ready).map (fun b => { r with ready := b })
  else if goFieldMatch key "message" then
    (jsonIntoString v r.message).map (fun s => { r with message := s })
  else some r

/-- unmarshalComposedResourceStatus is `json.Unmarshal` of one JSON value
into a `composedResourceStatus`: an object's entries are applied in order to
the zero struct, null leaves the zero struct, anything else is a type
error. -/
def unmarshalComposedResourceStatus (v : Jval) : Option composedResourceStatus :=
  match v with
  | .obj fs => fs.foldlM (fun r kv => setStatusField r kv.1 kv.2) zeroStatus
  | .null => some zeroStatus
  | _ => none

/-- unmarshalStatusList decodes the elements of a JSON array one by one,
failing as soon as one element fails. -/
def unmarshalStatusList : List Jval → Option (List composedResourceStatus)
  | [] => some []
  | v :: vs =>
    match unmarshalComposedResourceStatus v with
    | none => none
    | some r => (unmarshalStatusList vs).map (fun rs => r :: rs)

/-- unmarshalResourceStatuses is `json.Unmarshal` of one JSON value into a
`[]composedResourceStatus`: an array decodes elementwise, null yields the
nil slice, anything else is a type error. -/
def unmarshalResourceStatuses (v : Jval) : Option (List composedResourceStatus) :=
  match v with
  | .arr xs => unmarshalStatusList xs
  | .null => some []
  | _ => none

/-- unmarshalStatusesText is `json.Unmarshal([]byte(text),
&status.ResourceStatuses)` on a JSON text: a syntax error surfaces the
parser's error text, and a well-formed text of the wrong shape surfaces a
type error (whose exact Go wording no caller of this model inspects). -/
def unmarshalStatusesText (t : JsonText) : Except String (List composedResourceStatus) :=
  match t with
  | .error e => .error e
  | .ok v =>
    match unmarshalResourceStatuses v with
    | some l => .ok l
    | none => .error "json: cannot unmarshal value into []main.composedResourceStatus"

/-- conditionTypeClaudeHealthy is the fixed well-known condition type this
function reads and writes. -/
def conditionTypeClaudeHealthy : String := "HealthyAccordingToClaude"

/-- submitStatusToolName is the single tool the function declares to the
model. -/
def submitStatusToolName : String := "submit_status"

/-- XRCondition is a condition as found on the observed composite resource
(crossplane-runtime `xpv1.Condition`): type, a status string of
`True`/`False`/`Unknown`, a reason text (modelled by its JSON parse, since
`lastStatusFromObserved` immediately `json.Unmarshal`s it) and a message. -/
structure XRCondition where
  Type' : String
  Status : String
  Reason : JsonText
  Message : String

/-- ObservedXR is the observed composite resource restricted to what
`lastStatusFromObserved` reads: its status conditions. -/
structure ObservedXR where
  conditions : List XRCondition

/-- emptyReasonParse is what `json.Unmarshal` says about the empty string:
the `Reason` of a zero-valued condition is `""`, which is not valid JSON. -/
def emptyReasonParse : JsonText := .error "unexpected end of JSON input"

/-- GetCondition is crossplane-runtime's `ConditionedStatus.GetCondition`:
the first condition of the given type, else a zero condition of that type
with status Unknown (its `Reason` is the empty string, whose JSON parse
fails). -/
def GetCondition (conds : List XRCondition) (ct : String) : XRCondition :=
  match conds.find? (fun c => c.Type' == ct) with
  | some c => c
  | none => { Type' := ct, Status := "Unknown", Reason := emptyReasonParse, Message := "" }

/-- statusFromCondition is the body of `lastStatusFromObserved` after the
condition lookup: summary from the condition message, resource statuses
unmarshalled from the condition reason (any unmarshal error is wrapped and
returned), overall status `Ready` exactly when the condition status is
`True`. -/
def statusFromCondition (cond : XRCondition) : Except String CompositionStatus :=
  match unmarshalStatusesText cond.Reason with
  | .error e => .error ("cannot unmarshal resource statuses from condition reason: " ++ e)
  | .ok rs =>
    .ok { ResourceStatuses := rs,
          OverallStatus := if cond.Status == "True" then "Ready" else "NotReady",
          Summary := cond.Message }

/-- FnCondition is `fnv1.Condition` as `RunFunction` builds it: the type
string, an optional message (a Go `*string`), the reason (a JSON text,
modelled by its parse) and the boolean status (`STATUS_CONDITION_TRUE` as
`true`). -/
structure FnCondition where
  Type' : String
  Message : Option String
  Reason : JsonText
  Status : Bool

/-- Severity of an `fnv1.Result`. -/
inductive Severity where
  | unspecified
  | fatal
  | warning
  | normal
deriving DecidableEq

/-- FnResult is `fnv1.Result` restricted to the fields this function sets:
severity, message, and an optional reason (a JSON text). -/
structure FnResult where
  severity : Severity
  message : String
  reason : Option JsonText

/-- RunFunctionResponse is the response restricted to what `RunFunction`
writes: appended conditions and results. -/
structure RunFunctionResponse where
  conditions : List FnCondition
  results : List FnResult

/-- emptyResponse is `response.To(req, response.DefaultTTL)` as far as
conditions and results are concerned: none yet. -/
def emptyResponse : RunFunctionResponse := { conditions := [], results := [] }

/-- fatalRsp is `response.Fatal(rsp, err)`: append a fatal-severity result
carrying the error text. -/
def fatalRsp (rsp : RunFunctionResponse) (msg : String) : RunFunctionResponse :=
  { rsp with results := rsp.results ++ [{ severity := .fatal, message := msg, reason := none }] }

/-- conditionFromStatus is the condition `RunFunction` derives from a
successfully decoded `CompositionStatus`: the fixed well-known type, message
pointing at the summary, reason the JSON encoding of the resource statuses,
and boolean status true exactly when `OverallStatus == "Ready"`. -/
def conditionFromStatus (status : CompositionStatus) : FnCondition :=
  { Type' := conditionTypeClaudeHealthy,
    Message := some status.Summary,
    Reason := .ok (marshalResourceStatuses status.ResourceStatuses),
    Status := if status.OverallStatus == "Ready" then true else false }

/-- resultFromStatus is the normal-severity result `RunFunction` appends
alongside the condition: the same summary and JSON-encoded resource
statuses. -/
def resultFromStatus (status : CompositionStatus) : FnResult :=
  { severity := .normal,
    message := status.Summary,
    reason := some (.ok (marshalResourceStatuses status.ResourceStatuses)) }

/-- successRsp is the response after a successful `submit_status` decode:
the derived condition and the normal-severity result appended. -/
def successRsp (rsp : RunFunctionResponse) (status : CompositionStatus) : RunFunctionResponse :=
  { rsp with conditions := rsp.conditions ++ [conditionFromStatus status],
             results := rsp.results ++ [resultFromStatus status] }

/-- xrConditionOfFn is how a function-emitted condition comes back on the
observed composite on the next reconcile: Crossplane persists it with status
`True` for `STATUS_CONDITION_TRUE` and `False` otherwise, keeping type,
reason and message verbatim (a nil message persists as the empty string). -/
def xrConditionOfFn (c : FnCondition) : XRCondition :=
  { Type' := c.Type',
    Status := if c.Status then "True" else "False",
    Reason := c.Reason,
    Message := c.Message.getD "" }

/-- ProtoMessage models a `*fnv1.Resource` at the serialization boundary:
either `protojson.Marshal` succeeds and its output text parses to the given
outcome, or it fails with the given error text. -/
inductive ProtoMessage where
  | marshalsTo (parse : JsonText)
  | marshalFails (err : String)

/-- buildResult is `ProtoMapToJSON`'s loop: nil entries map to JSON null,
each message is marshalled with `protojson` and re-parsed with
`json.Unmarshal`, and the first failing entry aborts the whole conversion
with an error naming its key. -/
def buildResult : List (String × Option ProtoMessage) → Except String (List (String × Jval))
  | [] => .ok []
  | (key, none) :: rest =>
    (buildResult rest).map (fun r => (key, Jval.null) :: r)
  | (key, some (.marshalFails e)) :: _ =>
    .error ("failed to marshal proto message for key '" ++ key ++ "': " ++ e)
  | (key, some (.marshalsTo (.error e))) :: _ =>
    .error ("failed to unmarshal JSON for key '" ++ key ++ "': " ++ e)
  | (key, some (.marshalsTo (.ok v))) :: rest =>
    (buildResult rest).map (fun r => (key, v) :: r)

/-- ProtoMapToJSON converts a map of string keys to proto messages into a
single JSON string: each resource is marshalled and collected, then the
whole map is rendered with `json.MarshalIndent(result, "", "  ")`, which
writes map keys in sorted order; any single failing resource aborts the
conversion with no partial output.  The Go `map` iteration order is the
list's order; the theorems below show the successful output does not depend
on it. -/
def ProtoMapToJSON (protoMap : List (String × Option ProtoMessage)) : Except String String :=
  match buildResult protoMap with
  | .error e => .error e
  | .ok result => .ok (jsonSerializeIndent 0 (sortJ (.obj result)))

/-- entryOk says an entry of the proto map converts without error. -/
def entryOk : String × Option ProtoMessage → Bool
  | (_, none) => true
  | (_, some (.marshalsTo (.ok _))) => true
  | _ => false

/-- entryVal is the JSON value a successfully converting entry contributes
under its key. -/
def entryVal : String × Option ProtoMessage → String × Jval
  | (key, none) => (key, .null)
  | (key, some (.marshalsTo (.ok v))) => (key, v)
  | (key, some _) => (key, .null)

/-- entryErrorMsg is the error `ProtoMapToJSON` reports for a failing
entry, naming its key. -/
def entryErrorMsg : String × Option ProtoMessage → String
  | (key, some (.marshalFails e)) =>
    "failed to marshal proto message for key '" ++ key ++ "': " ++ e
  | (key, some (.marshalsTo (.error e))) =>
    "failed to unmarshal JSON for key '" ++ key ++ "': " ++ e
  | (_, _) => ""

/-- StatusStream models the `status_stream` tool input as the driver
observes it: `empty` when `gjson.Get(input, "status_stream").String()` is
empty (field missing, null or the empty string), `malformed e` when the
extracted text is non-empty but `json.Unmarshal` rejects it with error text
`e`, and `ok status` when it decodes to the given `CompositionStatus`. -/
inductive StatusStream where
  | empty
  | malformed (errText : String)
  | ok (status : CompositionStatus)
deriving DecidableEq

/-- ContentBlock is a block of a model reply: free text, or a tool
invocation with its id, tool name and (for `submit_status`) the observed
`status_stream` input. -/
inductive ContentBlock where
  | text (s : String)
  | toolUse (id name : String) (streamInput : StatusStream)
deriving DecidableEq

/-- ModelReply is one reply from the model service: its content blocks in
order. -/
structure ModelReply where
  content : List ContentBlock
deriving DecidableEq

/-- UserBlock is a block of a user turn: prompt text or a tool result
(`anthropic.NewToolResultBlock(id, content, isError)`). -/
inductive UserBlock where
  | userText (s : String)
  | toolResult (toolUseID : String) (content : String) (isError : Bool)
deriving DecidableEq

/-- MessageParam is one turn of the conversation history. -/
inductive MessageParam where
  | user (blocks : List UserBlock)
  | assistant (blocks : List ContentBlock)
deriving DecidableEq

/-- missingInputMsg is the fatal error for a `submit_status` call without a
usable `status_stream` (Go `%q` quotes the tool name). -/
def missingInputMsg (name : String) : String :=
  "Claude didn't provide 'status_stream' input property for \"" ++ name ++ "\" tool"

/-- unknownToolMsg is the fatal error for a tool-use block naming an
undeclared tool. -/
def unknownToolMsg (name : String) : String :=
  "Claude tried to use unknown tool \"" ++ name ++ "\""

/-- noYamlMsg is the fatal error after the loop breaks because a reply held
no tool-use blocks. -/
def noYamlMsg : String := "Claude didn't return a YAML stream of composed resource manifests"

/-- BlockOutcome is the outcome of scanning one reply's blocks: `done` when
a block made `RunFunction` return (success or fatal), `pending` with the
accumulated tool results otherwise. -/
inductive BlockOutcome where
  | done (rsp : RunFunctionResponse)
  | pending (toolResults : List UserBlock)

/-- processBlocks is the per-reply scan of `RunFunction`'s loop body: text
blocks are logged only; a `submit_status` tool-use with empty input is a
terminal failure, with malformed input appends an error tool-result and
continues, and with a decodable input returns the derived response at once;
any other tool name is a terminal failure. -/
def processBlocks (rsp : RunFunctionResponse) :
    List ContentBlock → List UserBlock → BlockOutcome
  | [], acc => .pending acc
  | .text _ :: rest, acc => processBlocks rsp rest acc
  | .toolUse id name input :: rest, acc =>
    if name == submitStatusToolName then
      match input with
      | .empty => .done (fatalRsp rsp (missingInputMsg name))
      | .malformed e => processBlocks rsp rest (acc ++ [.toolResult id e (e != "")])
      | .ok status => .done (successRsp rsp status)
    else
      .done (fatalRsp rsp (unknownToolMsg name))

/-- runLoop is `RunFunction`'s `for {}` conversation loop, with explicit
fuel standing for the number of iterations observed: call the model (the
stub receives the turn index and the full message history, the data
`client.Messages.New` is given), record its reply in the history, scan the
blocks; with no tool results the loop breaks into the terminal
"no YAML stream" failure, otherwise the tool results are fed back as a new
user turn.  `none` means the loop has not returned within `fuel`
iterations. -/
def runLoop (stub : Nat → List MessageParam → Except String ModelReply) :
    Nat → Nat → RunFunctionResponse → List MessageParam →
    Option (RunFunctionResponse × List MessageParam)
  | _, 0, _, _ => none
  | turn, fuel + 1, rsp, messages =>
    match stub turn messages with
    | .error e => some (fatalRsp rsp ("cannot message Claude: " ++ e), messages)
    | .ok reply =>
      let messages' := messages ++ [.assistant reply.content]
      match processBlocks rsp reply.content [] with
      | .done rsp' => some (rsp', messages')
      | .pending [] => some (fatalRsp rsp noYamlMsg, messages')
      | .pending (tr :: trs) =>
        runLoop stub (turn + 1) fuel rsp (messages' ++ [.user (tr :: trs)])

/-- Bedrock configuration of the function input. -/
structure Bedrock where
  ModelID : String
deriving DecidableEq

/-- AWSInput is the `aws` block of the function input. -/
structure AWSInput where
  bedrock : Bedrock
  Region : String
deriving DecidableEq

/-- StatusTransformation is the function's input object: the user's
additional context and optional AWS configuration. -/
structure StatusTransformation where
  AdditionalContext : String
  aws : Option AWSInput
deriving DecidableEq

/-- UseAWS says whether AWS configurations should be considered. -/
def StatusTransformation.UseAWS (s : StatusTransformation) : Bool := s.aws.isSome

/-- Variables used to form the prompt: observed composite text, observed
composed resources text, last status JSON, and the user input. -/
structure Variables where
  Composite : String
  Composed : String
  LastStatus : String
  Input : String
deriving DecidableEq

/-- renderVars is the fixed `vars` template executed on the four variables
(pure substitution, no conditional logic). -/
def renderVars (v : Variables) : String :=
  "\nHere are the newly composed resources:\n\n<composite>\n" ++ v.Composite ++
  "\n</composite>\n\nIf there are any existing composed resources, they will be provided here:\n\n<composed>\n" ++
  v.Composed ++
  "\n</composed>\n\nThe last status you produced is provided here:\n<last-status>\n" ++
  v.LastStatus ++
  "\n</last-status>\n\nAdditional input provided by the Kubernetes operator is provided here:\n\n<input>\n" ++
  v.Input ++ "\n</input>\n"

/-- prompt is the fixed instruction prompt (the Go `prompt` constant; braces
of its JSON example are written here as hex escapes). -/
def prompt : String :=
  "\n<instructions>\nPlease follow these instructions carefully:\n\n1. Analyze the provided set of composed resources searching for any resources\n   that are in an unhealthy state. Use the status.conditions field to determine\n   the status of the resource.\n\n2. For each resource that is in an unhealthy state, provide a succinct,\n   human-readable explanation of the issue. Only include resources that are \n   unhealthy. Use the metadata.name and namespace field to identify the \n   resource.\n\n3. If there are no unhealthy resources, output an empty \"resourceStatuses\"\n   array, an \"overallStatus\" of \"Ready\", and a summary of \"No unhealthy\n   resources found\".\n\n4. Along with the set of composed resources, I will also provide you with the\n   last status you. If your summary matches the previous summary and/or\n   the resource status messages are still accurate within the status reason,\n   return the previous status unchanged.\n\n5. For each explanation, provide a JSON object with the structure shown below in\n   the <example> tag. Submit the JSON object to the submit_status tool.\n</instructions>\n\n<example>\n\x7b\n\t\"resourceStatuses\": [\x7b\n\t\t\"name\": [resource-name],\n\t\t\"namespace\": [resource-namespace],\n\t\t\"kind\": [resource-kind],\n\t\t\"apiVersion\": [resource-apiVersion],\n\t\t\"ready\": [true|false],\n\t\t\"message\": [human-friendly-explanation-of-problems]\n\t\x7d],\n\t\"overallStatus\": [\"Ready\"|\"NotReady],\n\t\"summary\": [summary-of-problems]\n\x7d\n</example>\n"

/-- initialMessages is the message history `RunFunction` starts the loop
with: the fixed instruction prompt, then the rendered data prompt (each a
user turn with one text block; the cache-control hint on the first is a
performance hint with no behavioral content). -/
def initialMessages (varsText : String) : List MessageParam :=
  [.user [.userText prompt], .user [.userText varsText]]

/-- RunFunctionRequest is the incoming request restricted to what the
claims exercise, with external decodes modelled by their outcomes: the
function-input decode, `protojson.Marshal` of the observed composite, the
observed composed resource map, and
`request.GetObservedCompositeResource`. -/
structure RunFunctionRequest where
  getInput : Except String StatusTransformation
  marshalXR : Except String String
  observedResources : List (String × Option ProtoMessage)
  observedComposite : Except String ObservedXR

/-- lastStatusFromObserved reconstructs the prior `CompositionStatus` from
the observed composite's well-known condition; failure to obtain the
composite or to unmarshal the condition reason is a hard error (and the
zero condition returned when no prior condition exists carries an empty
reason, which fails to unmarshal). -/
def lastStatusFromObserved (req : RunFunctionRequest) : Except String CompositionStatus :=
  match req.observedComposite with
  | .error e => .error ("cannot get observed composite resource: " ++ e)
  | .ok oxr => statusFromCondition (GetCondition oxr.conditions conditionTypeClaudeHealthy)

/-- RunFunction is the request handler: the pre-loop pipeline (each failure
is a fatal terminal response), then the conversation loop.  `json.Marshal`
of the last status and the template execution cannot fail for these types
and are modelled total.  Constructing the LLM client is modelled by its
outcome `getClientResult`; note that, as in the source, its failure records
a fatal result but does not return — the loop still runs. -/
def RunFunction (fuel : Nat) (req : RunFunctionRequest)
    (getClientResult : Except String Unit)
    (stub : Nat → List MessageParam → Except String ModelReply) :
    Option RunFunctionResponse :=
  match req.getInput with
  | .error e =>
    some (fatalRsp emptyResponse ("cannot get Function input from *v1.RunFunctionRequest: " ++ e))
  | .ok input =>
    match req.marshalXR with
    | .error e => some (fatalRsp emptyResponse ("cannot convert observed XR to YAML: " ++ e))
    | .ok xrText =>
      match ProtoMapToJSON req.observedResources with
      | .error e =>
        some (fatalRsp emptyResponse ("cannot convert observed composed resources to YAML: " ++ e))
      | .ok cds =>
        match lastStatusFromObserved req with
        | .error e => some (fatalRsp emptyResponse ("cannot get last status from observed: " ++ e))
        | .ok lastStatus =>
          let lastStatusJSON := jsonSerialize (marshalCompositionStatus lastStatus)
          let varsText := renderVars
            { Composite := xrText, Composed := cds, LastStatus := lastStatusJSON,
              Input := input.AdditionalContext }
          let rsp := match getClientResult with
            | .error e => fatalRsp emptyResponse ("cannot get LLM client: " ++ e)
            | .ok _ => emptyResponse
          (runLoop stub 0 fuel rsp (initialMessages varsText)).map Prod.fst


/-- skippable marks the blocks the per-reply scan passes over without
returning: text blocks, and `submit_status` tool-use blocks with malformed
input (which only accumulate a tool result). -/
def skippable : ContentBlock → Bool
  | .text _ => true
  | .toolUse _ name (.malformed _) => name == submitStatusToolName
  | .toolUse _ _ _ => false

/-- feedback collects the error tool-results a run of skippable blocks
accumulates. -/
def feedback : List ContentBlock → List UserBlock
  | [] => []
  | .toolUse id _ (.malformed e) :: rest => .toolResult id e (e != "") :: feedback rest
  | _ :: rest => feedback rest

lemma processBlocks_skippable_prefix (pre : List ContentBlock)
    (hpre : ∀ b ∈ pre, skippable b = true) (rsp : RunFunctionResponse)
    (rest : List ContentBlock) (acc : List UserBlock) :
    processBlocks rsp (pre ++ rest) acc = processBlocks rsp rest (acc ++ feedback pre) := by
  induction pre generalizing acc with
  | nil => simp [feedback]
  | cons b pre' ih =>
    have hb : skippable b = true := hpre b (List.mem_cons_self _ _)
    have hpre' : ∀ b ∈ pre', skippable b = true := fun b hb => hpre b (List.mem_cons_of_mem _ hb)
    cases b with
    | text s => simpa [processBlocks, feedback] using ih hpre' acc
    | toolUse id name input =>
      cases input with
      | empty => simp [skippable] at hb
      | ok status => simp [skippable] at hb
      | malformed e =>
        have hname : (name == submitStatusToolName) = true := hb
        have step : processBlocks rsp
              (ContentBlock.toolUse id name (StatusStream.malformed e) :: (pre' ++ rest)) acc
            = processBlocks rsp (pre' ++ rest) (acc ++ [UserBlock.toolResult id e (e != "")]) := by
          simp [processBlocks, hname]
        rw [List.cons_append, step, ih hpre']
        simp [feedback]

/-- isTextBlock recognizes text blocks. -/
def isTextBlock : ContentBlock → Bool
  | .text _ => true
  | .toolUse _ _ _ => false

lemma feedback_of_text (l : List ContentBlock)
    (h : ∀ b ∈ l, isTextBlock b = true) : feedback l = [] := by
  induction l with
  | nil => rfl
  | cons b rest ih =>
    have hb := h b (List.mem_cons_self _ _)
    cases b with
    | text s => simpa [feedback] using ih fun b hb => h b (List.mem_cons_of_mem _ hb)
    | toolUse id name input => simp [isTextBlock] at hb

lemma unmarshal_marshal_one (r : composedResourceStatus) :
    unmarshalComposedResourceStatus (marshalComposedResourceStatus r) = some r := by
  cases r with
  | mk n ns k a rd m =>
    by_cases h : ns = ""
    · subst h; rfl
    · simp only [marshalComposedResourceStatus, if_neg h]
      rfl

lemma unmarshal_marshal_list (l : List composedResourceStatus) :
    unmarshalStatusList (l.map marshalComposedResourceStatus) = some l := by
  induction l with
  | nil => rfl
  | cons x xs ih => simp [unmarshalStatusList, unmarshal_marshal_one, ih]

lemma unmarshal_marshal_statuses (l : List composedResourceStatus) :
    unmarshalStatusesText (.ok (marshalResourceStatuses l)) = .ok l := by
  simp [unmarshalStatusesText, unmarshalResourceStatuses, marshalResourceStatuses,
    unmarshal_marshal_list]

/-- C5: for every valid `CompositionStatus` (overall status `Ready` or
`NotReady`), encoding it into the condition representation the way
`RunFunction` does (message = summary, reason = JSON-encoded resource
statuses, boolean from the overall status), persisting that condition onto
the composite, and decoding it back the way `lastStatusFromObserved` does
yields the original value field for field. -/
theorem statusCodec_roundtrip (s : CompositionStatus)
    (h : s.OverallStatus = "Ready" ∨ s.OverallStatus = "NotReady") :
    statusFromCondition (xrConditionOfFn (conditionFromStatus s)) = .ok s := by
  cases s with
  | mk rs ov sum =>
    rcases h with h | h <;> simp only at h <;> subst h <;>
      simp [statusFromCondition, xrConditionOfFn, conditionFromStatus,
        unmarshal_marshal_statuses]

/-- roundtripSample is a concrete two-resource status used to witness the
round trip. -/
def roundtripSample : CompositionStatus :=
  { ResourceStatuses := [
      { name := "db-1", namespace' := "default", kind := "RDSInstance",
        apiVersion := "database.aws.upbound.io/v1beta1", ready := false,
        message := "instance is stalled" },
      { name := "net", namespace' := "", kind := "VPC", apiVersion := "v1",
        ready := false, message := "missing subnet" }],
    OverallStatus := "NotReady",
    Summary := "two resources are unhealthy" }

/-- Witness for C5 at a concrete two-resource status. -/
theorem statusCodec_roundtrip_witness :
    (roundtripSample.OverallStatus = "Ready" ∨ roundtripSample.OverallStatus = "NotReady") ∧
    statusFromCondition (xrConditionOfFn (conditionFromStatus roundtripSample))
      = .ok roundtripSample :=
  ⟨Or.inr rfl, statusCodec_roundtrip roundtripSample (Or.inr rfl)⟩

/-- reqNoPriorCondition is a request whose observed composite exists but
carries no condition of the well-known type: the state of every first
reconcile. -/
def reqNoPriorCondition : RunFunctionRequest :=
  { getInput := .ok { AdditionalContext := "", aws := none },
    marshalXR := .ok "apiVersion: example.org/v1\nkind: XR",
    observedResources := [],
    observedComposite := .ok { conditions := [] } }

/-- C1: the claim says absence of a prior condition is a non-error state
that does not abort the request, but the code aborts: with no prior
condition `GetCondition` returns a zero condition whose empty `Reason`
fails `json.Unmarshal`, so `lastStatusFromObserved` hard-errors and
`RunFunction` returns a fatal response before any model call — even with a
working client and a model that would submit a valid status. -/
theorem absent_prior_condition_aborts :
    lastStatusFromObserved reqNoPriorCondition
      = .error "cannot unmarshal resource statuses from condition reason: unexpected end of JSON input" ∧
    RunFunction 3 reqNoPriorCondition (.ok ())
        (fun _ _ => .ok { content := [.toolUse "t" submitStatusToolName
          (.ok { ResourceStatuses := [], OverallStatus := "Ready", Summary := "fine" })] })
      = some (fatalRsp emptyResponse
          "cannot get last status from observed: cannot unmarshal resource statuses from condition reason: unexpected end of JSON input") :=
  ⟨rfl, rfl⟩

lemma runLoop_done (stub : Nat → List MessageParam → Except String ModelReply)
    (turn fuel : Nat) (rsp : RunFunctionResponse) (messages : List MessageParam)
    (reply : ModelReply) (rsp' : RunFunctionResponse)
    (hstub : stub turn messages = .ok reply)
    (hdone : processBlocks rsp reply.content [] = .done rsp') :
    runLoop stub turn (fuel + 1) rsp messages
      = some (rsp', messages ++ [.assistant reply.content]) := by
  simp [runLoop, hstub, hdone]

/-- readyStatus is a small healthy status used as concrete data. -/
def readyStatus : CompositionStatus :=
  { ResourceStatuses := [], OverallStatus := "Ready", Summary := "all healthy" }

/-- C3: for every `CompositionStatus` successfully decoded from a
`submit_status` tool call (reached after any run of text blocks and
malformed retries), the driver returns at once and the response carries a
condition of the fixed well-known type whose boolean status is true exactly
when `overallStatus == "Ready"`, whose message is the summary and whose
reason is the JSON encoding of the resource statuses, plus a
normal-severity result with the same summary and reason. -/
theorem submit_status_success_response
    (stub : Nat → List MessageParam → Except String ModelReply)
    (turn fuel : Nat) (rsp : RunFunctionResponse) (messages : List MessageParam)
    (reply : ModelReply) (pre rest : List ContentBlock) (id : String)
    (status : CompositionStatus)
    (hstub : stub turn messages = .ok reply)
    (hcontent : reply.content
      = pre ++ ContentBlock.toolUse id submitStatusToolName (.ok status) :: rest)
    (hpre : ∀ b ∈ pre, skippable b = true) :
    runLoop stub turn (fuel + 1) rsp messages
      = some (successRsp rsp status, messages ++ [.assistant reply.content]) ∧
    (successRsp rsp status).conditions = rsp.conditions ++
      [{ Type' := conditionTypeClaudeHealthy, Message := some status.Summary,
         Reason := .ok (marshalResourceStatuses status.ResourceStatuses),
         Status := if status.OverallStatus == "Ready" then true else false }] ∧
    (successRsp rsp status).results = rsp.results ++
      [{ severity := Severity.normal, message := status.Summary,
         reason := some (.ok (marshalResourceStatuses status.ResourceStatuses)) }] ∧
    ((conditionFromStatus status).Status = true ↔ status.OverallStatus = "Ready") := by
  have hdone : processBlocks rsp reply.content [] = .done (successRsp rsp status) := by
    rw [hcontent, processBlocks_skippable_prefix pre hpre]
    simp [processBlocks]
  refine ⟨runLoop_done _ _ _ _ _ _ _ hstub hdone, rfl, rfl, ?_⟩
  by_cases h : status.OverallStatus = "Ready" <;> simp [conditionFromStatus, h]

/-- Witness for C3: a reply narrating first, then submitting a decodable
status. -/
theorem submit_status_success_response_witness :
    runLoop (fun _ _ => .ok { content := [ContentBlock.text "analyzing",
        ContentBlock.toolUse "w3" submitStatusToolName (.ok roundtripSample)] }) 0 1
        emptyResponse []
      = some (successRsp emptyResponse roundtripSample,
          [.assistant [ContentBlock.text "analyzing",
            ContentBlock.toolUse "w3" submitStatusToolName (.ok roundtripSample)]]) :=
  (submit_status_success_response _ 0 0 emptyResponse [] _
    [ContentBlock.text "analyzing"] [] "w3" roundtripSample rfl rfl (by decide)).1

/-- C6 (amended): for every model reply in which a `submit_status` tool-use
block with missing or empty `status_stream` is preceded only by text blocks
and malformed-`status_stream` retries, the driver produces a terminal
failure naming the missing input property and attaches no condition. -/
theorem missing_status_stream_fatal
    (stub : Nat → List MessageParam → Except String ModelReply)
    (turn fuel : Nat) (rsp : RunFunctionResponse) (messages : List MessageParam)
    (reply : ModelReply) (pre rest : List ContentBlock) (id : String)
    (hstub : stub turn messages = .ok reply)
    (hcontent : reply.content
      = pre ++ ContentBlock.toolUse id submitStatusToolName .empty :: rest)
    (hpre : ∀ b ∈ pre, skippable b = true) :
    runLoop stub turn (fuel + 1) rsp messages
      = some (fatalRsp rsp (missingInputMsg submitStatusToolName),
          messages ++ [.assistant reply.content]) ∧
    missingInputMsg submitStatusToolName
      = "Claude didn't provide 'status_stream' input property for \"submit_status\" tool" ∧
    (fatalRsp rsp (missingInputMsg submitStatusToolName)).conditions = rsp.conditions ∧
    (fatalRsp rsp (missingInputMsg submitStatusToolName)).results
      = rsp.results ++
        [{ severity := Severity.fatal,
           message := missingInputMsg submitStatusToolName, reason := none }] := by
  have hdone : processBlocks rsp reply.content []
      = .done (fatalRsp rsp (missingInputMsg submitStatusToolName)) := by
    rw [hcontent, processBlocks_skippable_prefix pre hpre]
    simp [processBlocks]
  exact ⟨runLoop_done _ _ _ _ _ _ _ hstub hdone, rfl, rfl, rfl⟩

/-- Witness for C6's amended statement. -/
theorem missing_status_stream_fatal_witness :
    runLoop (fun _ _ => .ok { content := [ContentBlock.text "hmm",
        ContentBlock.toolUse "w6" submitStatusToolName .empty] }) 0 1 emptyResponse []
      = some (fatalRsp emptyResponse (missingInputMsg submitStatusToolName),
          [.assistant [ContentBlock.text "hmm",
            ContentBlock.toolUse "w6" submitStatusToolName .empty]]) :=
  (missing_status_stream_fatal _ 0 0 emptyResponse [] _
    [ContentBlock.text "hmm"] [] "w6" rfl rfl (by decide)).1

/-- cexSubmitThenEmpty is a reply that contains an empty-input
`submit_status` block, but only after a decodable one. -/
def cexSubmitThenEmpty : ModelReply :=
  { content := [
      ContentBlock.toolUse "a" submitStatusToolName (.ok readyStatus),
      ContentBlock.toolUse "b" submitStatusToolName .empty] }

/-- Counterexample for C6 as frozen: this reply contains a `submit_status`
tool-use block with empty `status_stream`, yet the driver does not fail — the
earlier valid call returns first, a condition is attached and no fatal
result is produced. -/
theorem missing_status_stream_not_always_fatal :
    runLoop (fun _ _ => .ok cexSubmitThenEmpty) 0 1 emptyResponse []
      = some (successRsp emptyResponse readyStatus, [.assistant cexSubmitThenEmpty.content]) ∧
    (successRsp emptyResponse readyStatus).conditions.length = 1 ∧
    ∀ r ∈ (successRsp emptyResponse readyStatus).results, r.severity ≠ Severity.fatal := by
  refine ⟨rfl, rfl, ?_⟩
  intro r hr
  simp [successRsp, emptyResponse, resultFromStatus] at hr
  subst hr
  decide

/-- C7 (amended): for every model reply in which a tool-use block naming a
tool other than `submit_status` is preceded only by text blocks and
malformed-`status_stream` retries, the driver produces a fatal error
containing that tool's name and attaches no condition. -/
theorem unknown_tool_fatal
    (stub : Nat → List MessageParam → Except String ModelReply)
    (turn fuel : Nat) (rsp : RunFunctionResponse) (messages : List MessageParam)
    (reply : ModelReply) (pre rest : List ContentBlock) (id name : String)
    (input : StatusStream)
    (hstub : stub turn messages = .ok reply)
    (hname : name ≠ submitStatusToolName)
    (hcontent : reply.content = pre ++ ContentBlock.toolUse id name input :: rest)
    (hpre : ∀ b ∈ pre, skippable b = true) :
    runLoop stub turn (fuel + 1) rsp messages
      = some (fatalRsp rsp (unknownToolMsg name), messages ++ [.assistant reply.content]) ∧
    unknownToolMsg name = "Claude tried to use unknown tool \"" ++ name ++ "\"" ∧
    (fatalRsp rsp (unknownToolMsg name)).conditions = rsp.conditions ∧
    (fatalRsp rsp (unknownToolMsg name)).results = rsp.results ++
      [{ severity := Severity.fatal, message := unknownToolMsg name, reason := none }] := by
  have hdone : processBlocks rsp reply.content [] = .done (fatalRsp rsp (unknownToolMsg name)) := by
    rw [hcontent, processBlocks_skippable_prefix pre hpre]
    have hb : (name == submitStatusToolName) = false := by simp [hname]
    simp [processBlocks, hb]
  exact ⟨runLoop_done _ _ _ _ _ _ _ hstub hdone, rfl, rfl, rfl⟩

/-- Witness for C7's amended statement. -/
theorem unknown_tool_fatal_witness :
    runLoop (fun _ _ => .ok { content := [ContentBlock.toolUse "w7" "other_tool" .empty] })
        0 1 emptyResponse []
      = some (fatalRsp emptyResponse (unknownToolMsg "other_tool"),
          [.assistant [ContentBlock.toolUse "w7" "other_tool" .empty]]) :=
  (unknown_tool_fatal _ 0 0 emptyResponse [] _ [] [] "w7" "other_tool" .empty
    rfl (by decide) rfl (by decide)).1

/-- cexSubmitThenOtherTool is a reply that contains a tool-use block naming
another tool, but only after a decodable `submit_status` call. -/
def cexSubmitThenOtherTool : ModelReply :=
  { content := [
      ContentBlock.toolUse "a" submitStatusToolName (.ok readyStatus),
      ContentBlock.toolUse "b" "other_tool" .empty] }

/-- Counterexample for C7 as frozen: this reply contains a tool-use block
naming `other_tool`, yet the driver does not produce a fatal error — the
earlier valid `submit_status` call returns first with a condition attached
and no fatal result. -/
theorem unknown_tool_not_always_fatal :
    runLoop (fun _ _ => .ok cexSubmitThenOtherTool) 0 1 emptyResponse []
      = some (successRsp emptyResponse readyStatus, [.assistant cexSubmitThenOtherTool.content]) ∧
    (successRsp emptyResponse readyStatus).conditions.length = 1 ∧
    ∀ r ∈ (successRsp emptyResponse readyStatus).results, r.severity ≠ Severity.fatal := by
  refine ⟨rfl, rfl, ?_⟩
  intro r hr
  simp [successRsp, emptyResponse, resultFromStatus] at hr
  subst hr
  decide

/-- C8: for every model reply containing only text blocks the driver exits
the loop and produces the terminal "no YAML stream" failure with no
condition attached; and a text block never affects control flow (processing
it is the identity on the scan state). -/
theorem text_only_reply_fatal
    (stub : Nat → List MessageParam → Except String ModelReply)
    (turn fuel : Nat) (rsp : RunFunctionResponse) (messages : List MessageParam)
    (reply : ModelReply)
    (hstub : stub turn messages = .ok reply)
    (htext : ∀ b ∈ reply.content, isTextBlock b = true) :
    runLoop stub turn (fuel + 1) rsp messages
      = some (fatalRsp rsp noYamlMsg, messages ++ [.assistant reply.content]) ∧
    (fatalRsp rsp noYamlMsg).conditions = rsp.conditions ∧
    (∀ (rsp' : RunFunctionResponse) (s : String) (bs : List ContentBlock) (acc : List UserBlock),
      processBlocks rsp' (ContentBlock.text s :: bs) acc = processBlocks rsp' bs acc) := by
  have hskip : ∀ b ∈ reply.content, skippable b = true := by
    intro b hb
    have := htext b hb
    cases b with
    | text s => rfl
    | toolUse id name input => simp [isTextBlock] at this
  have hpending : processBlocks rsp reply.content [] = .pending [] := by
    have h1 := processBlocks_skippable_prefix reply.content hskip rsp [] []
    rw [List.append_nil] at h1
    rw [h1, feedback_of_text _ htext]
    rfl
  refine ⟨?_, rfl, fun rsp' s bs acc => rfl⟩
  simp [runLoop, hstub, hpending]

/-- Witness for C8: a reply of two text blocks. -/
theorem text_only_reply_fatal_witness :
    runLoop (fun _ _ => .ok { content := [ContentBlock.text "thinking",
        ContentBlock.text "no issues found"] }) 0 1 emptyResponse []
      = some (fatalRsp emptyResponse noYamlMsg,
          [.assistant [ContentBlock.text "thinking", ContentBlock.text "no issues found"]]) :=
  (text_only_reply_fatal _ 0 0 emptyResponse [] _ rfl (by decide)).1

/-- invalidThenValidStub is the model stub of C2's scenario: an invalid-JSON
tool call on the first turn, a valid one on every later turn. -/
def invalidThenValidStub (errText : String) (status : CompositionStatus) :
    Nat → List MessageParam → Except String ModelReply :=
  fun turn _ =>
    if turn = 0 then
      .ok { content := [ContentBlock.toolUse "first" submitStatusToolName (.malformed errText)] }
    else
      .ok { content := [ContentBlock.toolUse "second" submitStatusToolName (.ok status)] }

/-- C2: a `submit_status` call whose non-empty `status_stream` fails to
decode does not terminate the driver: processing that block appends an
error tool-result carrying the decode error text and continues; and for the
stub emitting an invalid call then a valid one, the driver returns the
success response derived from the second call, with the first call's error
text fed back in the user turn of the subsequent request. -/
theorem malformed_stream_retries (errText : String) (status : CompositionStatus)
    (herr : errText ≠ "") :
    (∀ (rsp : RunFunctionResponse) (id : String) (rest : List ContentBlock)
        (acc : List UserBlock),
      processBlocks rsp
          (ContentBlock.toolUse id submitStatusToolName (.malformed errText) :: rest) acc
        = processBlocks rsp rest (acc ++ [UserBlock.toolResult id errText true])) ∧
    runLoop (invalidThenValidStub errText status) 0 2 emptyResponse []
      = some (successRsp emptyResponse status,
          [MessageParam.assistant
             [ContentBlock.toolUse "first" submitStatusToolName (.malformed errText)],
           MessageParam.user [UserBlock.toolResult "first" errText true],
           MessageParam.assistant
             [ContentBlock.toolUse "second" submitStatusToolName (.ok status)]]) := by
  have hbne : (errText != "") = true := by simp [bne_iff_ne, herr]
  constructor
  · intro rsp id rest acc
    simp [processBlocks, hbne]
  · simp [runLoop, invalidThenValidStub, processBlocks, hbne]

/-- Witness for C2 at a concrete error text and status. -/
theorem malformed_stream_retries_witness :
    runLoop (invalidThenValidStub "invalid character 'h'" readyStatus) 0 2 emptyResponse []
      = some (successRsp emptyResponse readyStatus,
          [MessageParam.assistant
             [ContentBlock.toolUse "first" submitStatusToolName (.malformed "invalid character 'h'")],
           MessageParam.user [UserBlock.toolResult "first" "invalid character 'h'" true],
           MessageParam.assistant
             [ContentBlock.toolUse "second" submitStatusToolName (.ok readyStatus)]]) :=
  (malformed_stream_retries "invalid character 'h'" readyStatus (by decide)).2

/-- alwaysMalformedStub returns, on every turn, a `submit_status` call with
a non-empty but JSON-invalid `status_stream`. -/
def alwaysMalformedStub : Nat → List MessageParam → Except String ModelReply :=
  fun _ _ =>
    .ok { content := [ContentBlock.toolUse "retry" submitStatusToolName
      (.malformed "invalid character 'x' looking for beginning of value")] }

/-- nominalRequest is a request whose pre-loop pipeline succeeds: the
function input decodes, the composite marshals, one composed resource
converts, and a prior condition with a valid JSON reason is present. -/
def nominalRequest : RunFunctionRequest :=
  { getInput := .ok { AdditionalContext := "check the database", aws := none },
    marshalXR := .ok "apiVersion: example.org/v1\nkind: XR",
    observedResources := [("db", some (.marshalsTo (.ok (.obj [("kind", .str "RDSInstance")]))))],
    observedComposite := .ok { conditions := [
      { Type' := "HealthyAccordingToClaude", Status := "True",
        Reason := .ok (.arr []), Message := "all good" }] } }

lemma RunFunction_ok_path (fuel : Nat) (req : RunFunctionRequest)
    (input : StatusTransformation) (xrText cds : String) (lastStatus : CompositionStatus)
    (stub : Nat → List MessageParam → Except String ModelReply)
    (h1 : req.getInput = .ok input) (h2 : req.marshalXR = .ok xrText)
    (h3 : ProtoMapToJSON req.observedResources = .ok cds)
    (h4 : lastStatusFromObserved req = .ok lastStatus) :
    RunFunction fuel req (.ok ()) stub
      = (runLoop stub 0 fuel emptyResponse (initialMessages (renderVars
          { Composite := xrText, Composed := cds,
            LastStatus := jsonSerialize (marshalCompositionStatus lastStatus),
            Input := input.AdditionalContext }))).map Prod.fst := by
  simp [RunFunction, h1, h2, h3, h4]

/-- C4: the conversation loop has no enforced maximum number of iterations.
For the stub that on every turn returns a `submit_status` call with a
non-empty but JSON-invalid `status_stream`, no amount of fuel makes the
loop return — and the whole of `RunFunction`, on a request whose pre-loop
pipeline succeeds, likewise never produces a terminal response. -/
theorem conversation_loop_unbounded :
    (∀ (fuel turn : Nat) (rsp : RunFunctionResponse) (messages : List MessageParam),
      runLoop alwaysMalformedStub turn fuel rsp messages = none) ∧
    ∀ fuel : Nat, RunFunction fuel nominalRequest (.ok ()) alwaysMalformedStub = none := by
  have main : ∀ (fuel turn : Nat) (rsp : RunFunctionResponse) (messages : List MessageParam),
      runLoop alwaysMalformedStub turn fuel rsp messages = none := by
    intro fuel
    induction fuel with
    | zero => intro turn rsp messages; rfl
    | succ n ih =>
      intro turn rsp messages
      simp only [runLoop, alwaysMalformedStub, processBlocks]
      simp only [List.nil_append]
      exact ih _ _ _
  refine ⟨main, fun fuel => ?_⟩
  rw [RunFunction_ok_path fuel nominalRequest _ _ _ _ _ rfl rfl rfl rfl, main]
  rfl

/-- C10: when constructing the LLM client fails, `RunFunction` records the
fatal error on the response but does not return there: it proceeds into the
conversation loop (the first model call is still attempted), so with a
model call that itself errors the response carries both fatal results. -/
theorem getClient_failure_not_terminal
    (req : RunFunctionRequest) (input : StatusTransformation) (xrText cds : String)
    (lastStatus : CompositionStatus) (e : String) (fuel : Nat)
    (stub : Nat → List MessageParam → Except String ModelReply)
    (h1 : req.getInput = .ok input) (h2 : req.marshalXR = .ok xrText)
    (h3 : ProtoMapToJSON req.observedResources = .ok cds)
    (h4 : lastStatusFromObserved req = .ok lastStatus) :
    RunFunction fuel req (.error e) stub
      = (runLoop stub 0 fuel (fatalRsp emptyResponse ("cannot get LLM client: " ++ e))
          (initialMessages (renderVars
            { Composite := xrText, Composed := cds,
              LastStatus := jsonSerialize (marshalCompositionStatus lastStatus),
              Input := input.AdditionalContext }))).map Prod.fst ∧
    (fatalRsp emptyResponse ("cannot get LLM client: " ++ e)).results
      = [{ severity := Severity.fatal, message := "cannot get LLM client: " ++ e, reason := none }] ∧
    RunFunction (fuel + 1) req (.error e) (fun _ _ => .error "api unreachable")
      = some { conditions := [],
               results := [{ severity := Severity.fatal, message := "cannot get LLM client: " ++ e, reason := none },
                           { severity := Severity.fatal, message := "cannot message Claude: api unreachable", reason := none }] } := by
  refine ⟨?_, rfl, ?_⟩
  · simp [RunFunction, h1, h2, h3, h4]
  · simp [RunFunction, h1, h2, h3, h4, runLoop, fatalRsp, emptyResponse]

/-- Witness for C10: on the nominal request with a failing client, the
response carries the client fatal and the attempted model call's fatal. -/
theorem getClient_failure_not_terminal_witness :
    RunFunction 1 nominalRequest (.error "no credentials") (fun _ _ => .error "api unreachable")
      = some { conditions := [],
               results := [{ severity := Severity.fatal, message := "cannot get LLM client: no credentials", reason := none },
                           { severity := Severity.fatal, message := "cannot message Claude: api unreachable", reason := none }] } :=
  (getClient_failure_not_terminal nominalRequest
    { AdditionalContext := "check the database", aws := none }
    "apiVersion: example.org/v1\nkind: XR"
    (jsonSerializeIndent 0 (sortJ (.obj [("db", Jval.obj [("kind", Jval.str "RDSInstance")])])))
    { ResourceStatuses := [], OverallStatus := "Ready", Summary := "all good" }
    "no credentials" 0 (fun _ _ => .error "api unreachable") rfl rfl rfl rfl).2.2

lemma char_eq_of_toNat_eq (a b : Char) (h : a.toNat = b.toNat) : a = b :=
  Char.eq_of_val_eq (UInt32.eq_of_val_eq (Fin.eq_of_val_eq h))

lemma charListLe_total (as bs : List Char) :
    charListLe as bs = true ∨ charListLe bs as = true := by
  induction as generalizing bs with
  | nil => exact Or.inl rfl
  | cons a as ih =>
    cases bs with
    | nil => exact Or.inr rfl
    | cons b bs =>
      rcases Nat.lt_trichotomy a.toNat b.toNat with h | h | h
      · left; simp [charListLe, h]
      · rcases ih bs with h2 | h2
        · left; simp [charListLe, h, Nat.lt_irrefl, h2]
        · right; simp [charListLe, h, Nat.lt_irrefl, h2]
      · right; simp [charListLe, h]

lemma charListLe_trans (as bs cs : List Char) (h1 : charListLe as bs = true)
    (h2 : charListLe bs cs = true) : charListLe as cs = true := by
  induction as generalizing bs cs with
  | nil => rfl
  | cons a as ih =>
    cases bs with
    | nil => simp [charListLe] at h1
    | cons b bs =>
      cases cs with
      | nil => simp [charListLe] at h2
      | cons c cs =>
        rcases Nat.lt_trichotomy a.toNat b.toNat with hab | hab | hab
        · rcases Nat.lt_trichotomy b.toNat c.toNat with hbc | hbc | hbc
          · simp [charListLe, Nat.lt_trans hab hbc]
          · have : a.toNat < c.toNat := hbc ▸ hab
            simp [charListLe, this]
          · simp [charListLe, Nat.lt_asymm hbc, hbc] at h2
        · rcases Nat.lt_trichotomy b.toNat c.toNat with hbc | hbc | hbc
          · have : a.toNat < c.toNat := hab ▸ hbc
            simp [charListLe, this]
          · have hac : a.toNat = c.toNat := hab.trans hbc
            simp only [charListLe, hab, Nat.lt_irrefl, if_false] at h1
            simp only [charListLe, hbc, Nat.lt_irrefl, if_false] at h2
            simp only [charListLe, hac, Nat.lt_irrefl, if_false]
            exact ih bs cs h1 h2
          · simp [charListLe, Nat.lt_asymm hbc, hbc] at h2
        · simp [charListLe, Nat.lt_asymm hab, hab] at h1

lemma charListLe_antisymm (as bs : List Char) (h1 : charListLe as bs = true)
    (h2 : charListLe bs as = true) : as = bs := by
  induction as generalizing bs with
  | nil =>
    cases bs with
    | nil => rfl
    | cons b bs => simp [charListLe] at h2
  | cons a as ih =>
    cases bs with
    | nil => simp [charListLe] at h1
    | cons b bs =>
      rcases Nat.lt_trichotomy a.toNat b.toNat with hab | hab | hab
      · simp [charListLe, Nat.lt_asymm hab, hab] at h2
      · simp only [charListLe, hab, Nat.lt_irrefl, if_false] at h1
        simp only [charListLe, hab.symm, Nat.lt_irrefl, if_false] at h2
        rw [char_eq_of_toNat_eq a b hab, ih bs h1 h2]
      · simp [charListLe, Nat.lt_asymm hab, hab] at h1

instance : IsTotal (String × Jval) keyLe :=
  ⟨fun a b => charListLe_total a.1.data b.1.data⟩

instance : IsTrans (String × Jval) keyLe :=
  ⟨fun a b c => charListLe_trans a.1.data b.1.data c.1.data⟩

/-- keyLt is the strict key order used to show sorted field lists with
distinct keys are unique. -/
def keyLt (a b : String × Jval) : Prop := keyLe a b ∧ a.1 ≠ b.1

instance : IsAntisymm (String × Jval) keyLt :=
  ⟨fun a b hab hba =>
    absurd (String.ext (charListLe_antisymm a.1.data b.1.data hab.1 hba.1)) hab.2⟩

lemma insertionSort_key_unique (l₁ l₂ : List (String × Jval)) (hp : l₁.Perm l₂)
    (hnd : (l₁.map Prod.fst).Nodup) :
    List.insertionSort keyLe l₁ = List.insertionSort keyLe l₂ := by
  have p₁ := List.perm_insertionSort keyLe l₁
  have p₂ := List.perm_insertionSort keyLe l₂
  have hp' : (List.insertionSort keyLe l₁).Perm (List.insertionSort keyLe l₂) :=
    p₁.trans (hp.trans p₂.symm)
  have s₁ := List.sorted_insertionSort keyLe l₁
  have s₂ := List.sorted_insertionSort keyLe l₂
  have nd₁ : ((List.insertionSort keyLe l₁).map Prod.fst).Nodup :=
    ((p₁.map Prod.fst).nodup_iff).mpr hnd
  have nd₂ : ((List.insertionSort keyLe l₂).map Prod.fst).Nodup := by
    have hnd₂ : (l₂.map Prod.fst).Nodup := ((hp.map Prod.fst).nodup_iff).mp hnd
    exact ((p₂.map Prod.fst).nodup_iff).mpr hnd₂
  have t₁ : List.Sorted keyLt (List.insertionSort keyLe l₁) :=
    (s₁.and (List.pairwise_map.mp nd₁)).imp fun h => ⟨h.1, h.2⟩
  have t₂ : List.Sorted keyLt (List.insertionSort keyLe l₂) :=
    (s₂.and (List.pairwise_map.mp nd₂)).imp fun h => ⟨h.1, h.2⟩
  exact List.eq_of_perm_of_sorted hp' t₁ t₂

lemma buildResult_ok (l : List (String × Option ProtoMessage))
    (h : ∀ p ∈ l, entryOk p = true) :
    buildResult l = .ok (l.map entryVal) := by
  induction l with
  | nil => rfl
  | cons p rest ih =>
    have hp := h p (List.mem_cons_self _ _)
    have hrest := ih fun q hq => h q (List.mem_cons_of_mem _ hq)
    obtain ⟨k, m⟩ := p
    match m with
    | none => simp [buildResult, entryVal, hrest, Except.map]
    | some (.marshalsTo (.ok v)) => simp [buildResult, entryVal, hrest, Except.map]
    | some (.marshalsTo (.error e)) => simp [entryOk] at hp
    | some (.marshalFails e) => simp [entryOk] at hp

lemma buildResult_error (pre post : List (String × Option ProtoMessage))
    (p : String × Option ProtoMessage)
    (hpre : ∀ q ∈ pre, entryOk q = true) (hp : entryOk p = false) :
    buildResult (pre ++ p :: post) = .error (entryErrorMsg p) := by
  induction pre with
  | nil =>
    obtain ⟨k, m⟩ := p
    match m with
    | none => simp [entryOk] at hp
    | some (.marshalsTo (.ok v)) => simp [entryOk] at hp
    | some (.marshalsTo (.error e)) => rfl
    | some (.marshalFails e) => rfl
  | cons q pre' ih =>
    have hq := hpre q (List.mem_cons_self _ _)
    have ih' := ih fun r hr => hpre r (List.mem_cons_of_mem _ hr)
    obtain ⟨k, m⟩ := q
    match m with
    | none => simp [buildResult, ih', Except.map]
    | some (.marshalsTo (.ok v)) => simp [buildResult, ih', Except.map]
    | some (.marshalsTo (.error e)) => simp [entryOk] at hq
    | some (.marshalFails e) => simp [entryOk] at hq

lemma sortJFields_map (fs : List (String × Jval)) :
    sortJFields fs = fs.map (fun kv => (kv.1, sortJ kv.2)) := by
  induction fs with
  | nil => rfl
  | cons kv rest ih =>
    obtain ⟨k, v⟩ := kv
    simp [sortJFields, ih]

lemma entryVal_fst (p : String × Option ProtoMessage) : (entryVal p).1 = p.1 := by
  obtain ⟨k, m⟩ := p
  match m with
  | none => rfl
  | some (.marshalsTo (.ok v)) => rfl
  | some (.marshalsTo (.error e)) => rfl
  | some (.marshalFails e) => rfl

lemma keys_entryVal_sorted (l : List (String × Option ProtoMessage)) :
    ((l.map entryVal).map (fun kv => (kv.1, sortJ kv.2))).map Prod.fst = l.map Prod.fst := by
  induction l with
  | nil => rfl
  | cons p rest ih =>
    simp only [List.map_cons]
    rw [ih]
    congr 1
    exact entryVal_fst p

/-- C9: the resource-to-text conversion is deterministic — for association
lists presenting the same key-to-resource map (permutations with distinct
keys, the Go map iteration orders), the successful output text is
identical (keys are emitted sorted) — and a failing resource aborts the
whole conversion: the first failing entry in iteration order yields an
error naming its key, with no partial output. -/
theorem protoMapToJSON_deterministic_and_total_failure :
    (∀ (l₁ l₂ : List (String × Option ProtoMessage)),
      l₁.Perm l₂ → (l₁.map Prod.fst).Nodup → (∀ p ∈ l₁, entryOk p = true) →
      ProtoMapToJSON l₁ = ProtoMapToJSON l₂) ∧
    (∀ (pre post : List (String × Option ProtoMessage)) (p : String × Option ProtoMessage),
      (∀ q ∈ pre, entryOk q = true) → entryOk p = false →
      ProtoMapToJSON (pre ++ p :: post) = .error (entryErrorMsg p)) := by
  constructor
  · intro l₁ l₂ hp hnd hok
    have hok₂ : ∀ p ∈ l₂, entryOk p = true := fun p hpm => hok p (hp.mem_iff.mpr hpm)
    rw [ProtoMapToJSON, ProtoMapToJSON, buildResult_ok l₁ hok, buildResult_ok l₂ hok₂]
    have hsort : List.insertionSort keyLe (sortJFields (l₁.map entryVal))
        = List.insertionSort keyLe (sortJFields (l₂.map entryVal)) := by
      rw [sortJFields_map, sortJFields_map]
      apply insertionSort_key_unique
      · exact (hp.map entryVal).map _
      · rw [keys_entryVal_sorted]
        exact hnd
    simp [sortJ, hsort]
  · intro pre post p hpre hp
    rw [ProtoMapToJSON, buildResult_error pre post p hpre hp]

/-- Witness for C9: two iteration orders of a two-entry map give the same
text, and a map with a failing entry errors naming that entry's key. -/
theorem protoMapToJSON_deterministic_witness :
    ProtoMapToJSON [("db", some (.marshalsTo (.ok (.num 1)))), ("app", none)]
      = ProtoMapToJSON [("app", none), ("db", some (.marshalsTo (.ok (.num 1))))] ∧
    ProtoMapToJSON [("app", none), ("db", some (.marshalFails "proto: invalid message"))]
      = .error (entryErrorMsg ("db", some (.marshalFails "proto: invalid message"))) :=
  ⟨protoMapToJSON_deterministic_and_total_failure.1 _ _ (List.Perm.swap _ _ _)
      (by decide) (by decide),
   protoMapToJSON_deterministic_and_total_failure.2 [("app", none)] [] _
      (by decide) (by decide)⟩
